import Mathlib

set_option linter.deprecated false

/-!
# Verification of the SocketClient RPC transport core

Shallow embedding of the `SocketClient` / `MessageSubject` client found in the
repository source (the RPC client document inside
`src/packages/http/tests/module.spec.ts`, lines 179-686), together with the
parts of the surrounding design that the source file references but does not
contain (those definitions carry a doc comment starting `Modelled from the
spec:`).

The embedding keeps the source's structure:

* `ClientState` carries the fields of `SocketClient` that the verified claims
  touch: `messageId` (the id counter), `replies` (the id -> reply-callback
  table, represented as an association list from message id to the id of the
  subject created for that exchange), the per-subject state (`subjects`),
  connection flags, and observation logs (frames handed to the entity state,
  frames dropped with a `console.error`, outbound messages).
* `sendMessage` transliterates `SocketClient.sendMessage`: increment the id
  counter, create a fresh `MessageSubject` whose teardown deletes the routing
  entry, install the reply callback, and only then schedule
  `connect().then(send, subject.error)`.
* `onMessage` transliterates `SocketClient.onMessage`: entity broadcast frames
  go to the entity state, `channel` frames are ignored, all other frames are
  looked up by `id` in the replies table and either forwarded to the matching
  subject or logged and dropped.
* `closeSubject` transliterates `MessageSubject.close` with the teardown that
  `sendMessage` registers: run the teardown (`delete this.replies[messageId]`,
  counted in `teardownRuns`), then `complete()` the subject.

RxJS `Subject` semantics used throughout: `next`, `error` and `complete` on a
stopped subject are no-ops; `complete`/`error` mark the subject stopped.
-/

/-- An inbound wire frame as consumed by `SocketClient.onMessage`: a `type`
discriminant string and the message identifier `id` (entity broadcast frames
carry no meaningful id; the field is simply unused for them). -/
structure ServerMessage where
  type : String
  id : Nat
deriving DecidableEq, Repr

/-- The entity broadcast family tested first in `onMessage`:
`entity/remove`, `entity/patch`, `entity/update`, `entity/removeMany`. -/
def isEntityBroadcast (t : String) : Bool :=
  t = "entity/remove" || t = "entity/patch" || t = "entity/update" || t = "entity/removeMany"

/-- A frame that reaches the replies-table branch of `onMessage`:
not an entity broadcast and not a `channel` frame. -/
def routable (m : ServerMessage) : Bool :=
  !isEntityBroadcast m.type && m.type != "channel"

/-- An outbound client message (`send(JSON.stringify(message))`):
the allocated id plus the name/controller/action payload fields the claims
inspect. -/
structure OutMsg where
  id : Nat
  name : String
  controller : String
  action : String
deriving DecidableEq, Repr

/-- State of one `MessageSubject` (an RxJS `Subject`): the frames delivered via
`next`, whether the subject is stopped (`complete`/`error` called), and whether
it was stopped by `error`. -/
structure SubjectState where
  received : List ServerMessage
  stopped : Bool
  errored : Bool
deriving DecidableEq, Repr

/-- The `SocketClient` fields the claims are about, plus observation logs.
`replies` maps a message id to the id of the subject whose `next` the stored
callback invokes (in the source the binding is by closure capture; here the
subject is identified by the message id it was created for).  `teardownRuns`
counts, per subject, how many times the teardown registered at construction
has been invoked.  `outbox` records messages passed to `send`,
`entityDelivered` records frames routed to `entityState.handleEntityMessage`,
`droppedLog` records frames that hit the `console.error` branch. -/
structure ClientState where
  messageId : Nat
  replies : List (Nat × Nat)
  subjects : List (Nat × SubjectState)
  teardownRuns : List (Nat × Nat)
  connected : Bool
  loggedIn : Bool
  socketOpen : Bool
  outbox : List OutMsg
  entityDelivered : List ServerMessage
  droppedLog : List ServerMessage
deriving DecidableEq, Repr

/-- A freshly constructed `SocketClient`: `messageId = 0`, empty tables. -/
def initClient : ClientState :=
  { messageId := 0
    replies := []
    subjects := []
    teardownRuns := []
    connected := false
    loggedIn := false
    socketOpen := false
    outbox := []
    entityDelivered := []
    droppedLog := [] }

/-- Apply `f` to the state of subject `k` (the subject is a single object in
the source; the association list keeps the first entry for a key as the live
one and `updateSubject` rewrites every entry with that key, which coincides
with object update because keys are allocated fresh). -/
def updateSubject (s : ClientState) (k : Nat) (f : SubjectState → SubjectState) : ClientState :=
  { s with subjects := s.subjects.map (fun p => (p.1, if p.1 = k then f p.2 else p.2)) }

/-- `subject.next(reply)`: append the frame to `received` unless the subject
is stopped (RxJS: `next` after `complete`/`error` is a no-op). -/
def deliverToSubject (s : ClientState) (k : Nat) (m : ServerMessage) : ClientState :=
  updateSubject s k (fun st => if st.stopped then st else { st with received := st.received ++ [m] })

/-- `subject.complete()`: mark stopped unless already stopped. -/
def completeSubject (s : ClientState) (k : Nat) : ClientState :=
  updateSubject s k (fun st => if st.stopped then st else { st with stopped := true })

/-- `subject.error(e)`: mark stopped and errored unless already stopped. -/
def subjectError (s : ClientState) (k : Nat) : ClientState :=
  updateSubject s k (fun st => if st.stopped then st else { st with stopped := true, errored := true })

/-- `SocketClient.sendMessage`: `this.messageId++`, allocate the id, create the
`MessageSubject` whose teardown is `() => delete this.replies[messageId]`, and
install `this.replies[messageId] = reply => subject.next(reply)`.  All of this
happens synchronously before `connect()` is awaited; the returned number is the
allocated id (which also identifies the returned subject). -/
def sendMessage (s : ClientState) : ClientState × Nat :=
  let mid := s.messageId + 1
  ({ s with
      messageId := mid
      replies := (mid, mid) :: s.replies
      subjects := (mid, ⟨[], false, false⟩) :: s.subjects
      teardownRuns := (mid, 0) :: s.teardownRuns }, mid)

/-- The success continuation of `sendMessage`'s
`this.connect().then(() => this.send(message), ...)`: the frame
`{id: messageId, ...messageWithoutId}` goes out on the socket. -/
def connectThenSend (s : ClientState) (m : OutMsg) : ClientState :=
  { s with outbox := s.outbox ++ [m] }

/-- The failure continuation of `sendMessage`'s
`this.connect().then(..., error => subject.error(error))`: the connection
failure is delivered as an error on the subject created for id `mid`. -/
def connectFailed (s : ClientState) (mid : Nat) : ClientState :=
  subjectError s mid

/-- `SocketClient.onMessage`: entity broadcast frames go to
`entityState.handleEntityMessage`; `channel` frames are ignored (`not built in
yet`); every other frame is looked up by `message.id` in `replies` and either
forwarded (`this.replies[message.id](message)`, i.e. `subject.next`) or logged
with `console.error` and dropped. -/
def onMessage (s : ClientState) (m : ServerMessage) : ClientState :=
  if isEntityBroadcast m.type then
    { s with entityDelivered := s.entityDelivered ++ [m] }
  else if m.type = "channel" then s
  else
    match s.replies.lookup m.id with
    | some subjId => deliverToSubject s subjId m
    | none => { s with droppedLog := s.droppedLog ++ [m] }

/-- The teardown `sendMessage` registers on the subject for id `mid`:
`() => delete this.replies[messageId]`.  Each invocation is counted. -/
def runTeardown (s : ClientState) (mid : Nat) : ClientState :=
  { s with
      replies := s.replies.filter (fun p => p.1 ≠ mid)
      teardownRuns := s.teardownRuns.map (fun p => (p.1, if p.1 = mid then p.2 + 1 else p.2)) }

/-- `MessageSubject.close`: `tearDown(this.teardown); this.complete();`.
`tearDown` on a function teardown simply invokes it (it is a stateless helper
and cannot guard against re-invocation). -/
def closeSubject (s : ClientState) (mid : Nat) : ClientState :=
  completeSubject (runTeardown s mid) mid

/-- Number of recorded invocations of the teardown of subject `mid`. -/
def teardownCount (s : ClientState) (mid : Nat) : Nat :=
  (s.teardownRuns.lookup mid).getD 0

/-- Frames received so far by the subject identified by `k`. -/
def receivedBy (s : ClientState) (k : Nat) : List ServerMessage :=
  ((s.subjects.lookup k).map SubjectState.received).getD []

/-- Issue `n` one-shot `sendMessage` calls in a row (the payload of the
message is irrelevant for routing). -/
def sendN : Nat → ClientState → ClientState
  | 0, s => s
  | n + 1, s => sendN n (sendMessage s).1

/-- Process a list of inbound frames through `onMessage` in order. -/
def processFrames (s : ClientState) (fs : List ServerMessage) : ClientState :=
  fs.foldl onMessage s

/-- `SocketClient.disconnect`: `connected = false; loggedIn = false;
socket.close(); delete this.socket`.  Note that `messageId`, `replies` and the
caches are left untouched. -/
def disconnect (s : ClientState) : ClientState :=
  { s with connected := false, loggedIn := false, socketOpen := false }

/-- The happy path of `doConnect`'s `socket.onopen` for a token-less config:
`this.connected = true; this.connectionTries = 0; resolve()` (the socket was
created at the start of `doConnect`). -/
def connectSuccess (s : ClientState) : ClientState :=
  { s with connected := true, socketOpen := true }

/-- Issue `n` calls and also collect the allocated message ids, in call order. -/
def sendNIds : Nat → ClientState → ClientState × List Nat
  | 0, s => (s, [])
  | n + 1, s =>
    let p := sendMessage s
    let q := sendNIds n p.1
    (q.1, p.2 :: q.2)


theorem lookup_map_update {α : Type} (l : List (Nat × α)) (k j : Nat) (f : α → α) :
    List.lookup j (l.map (fun p => (p.1, if p.1 = k then f p.2 else p.2))) =
      (List.lookup j l).map (fun v => if j = k then f v else v) := by
  induction l with
  | nil => rfl
  | cons hd tl ih =>
    rcases hd with ⟨a, b⟩
    by_cases hja : j = a
    · subst hja
      simp [List.lookup]
    · have hbe : (j == a) = false := by simpa using hja
      simp [List.lookup, hbe, ih]

theorem sendN_eq_sendNIds_fst (n : Nat) (s : ClientState) :
    (sendNIds n s).1 = sendN n s := by
  induction n generalizing s with
  | zero => rfl
  | succ n ih => simpa [sendNIds, sendN] using ih (sendMessage s).1

theorem sendNIds_snd (n : Nat) (s : ClientState) :
    (sendNIds n s).2 = List.range' (s.messageId + 1) n := by
  induction n generalizing s with
  | succ n ih =>
    have h1 : (sendNIds (n + 1) s).2 = (sendMessage s).2 :: (sendNIds n (sendMessage s).1).2 := rfl
    have h2 : (sendMessage s).1.messageId = s.messageId + 1 := rfl
    have h3 : (sendMessage s).2 = s.messageId + 1 := rfl
    rw [h1, ih (sendMessage s).1, h2, h3, List.range'_succ]
  | zero => rfl

theorem sendN_messageId (n : Nat) (s : ClientState) :
    (sendN n s).messageId = s.messageId + n := by
  induction n generalizing s with
  | zero => rfl
  | succ n ih =>
    have h : sendN (n + 1) s = sendN n (sendMessage s).1 := rfl
    have h2 : (sendMessage s).1.messageId = s.messageId + 1 := rfl
    rw [h, ih (sendMessage s).1, h2]
    omega

theorem sendN_replies_lookup (n : Nat) (s : ClientState) (j : Nat) :
    List.lookup j (sendN n s).replies =
      if s.messageId < j ∧ j ≤ s.messageId + n then some j
      else List.lookup j s.replies := by
  induction n generalizing s with
  | zero =>
    have hc : ¬(s.messageId < j ∧ j ≤ s.messageId + 0) := by omega
    exact (if_neg hc).symm
  | succ n ih =>
    have h : sendN (n + 1) s = sendN n (sendMessage s).1 := rfl
    rw [h, ih (sendMessage s).1]
    have h2 : (sendMessage s).1.messageId = s.messageId + 1 := rfl
    have h3 : (sendMessage s).1.replies = (s.messageId + 1, s.messageId + 1) :: s.replies := rfl
    rw [h2, h3]
    by_cases hj : j = s.messageId + 1
    · subst hj
      have hc1 : ¬(s.messageId + 1 < s.messageId + 1 ∧ s.messageId + 1 ≤ s.messageId + 1 + n) := by
        omega
      have hc2 : s.messageId < s.messageId + 1 ∧ s.messageId + 1 ≤ s.messageId + (n + 1) := by
        omega
      simp [hc1, hc2, List.lookup]
    · have hbe : (j == s.messageId + 1) = false := by simpa using hj
      by_cases hlo : s.messageId < j ∧ j ≤ s.messageId + (n + 1)
      · have hhi : s.messageId + 1 < j ∧ j ≤ s.messageId + 1 + n := by omega
        simp [hhi, hlo]
      · have hhi : ¬(s.messageId + 1 < j ∧ j ≤ s.messageId + 1 + n) := by omega
        simp [hhi, hlo, List.lookup, hbe]

theorem sendN_subjects_lookup (n : Nat) (s : ClientState) (j : Nat) :
    List.lookup j (sendN n s).subjects =
      if s.messageId < j ∧ j ≤ s.messageId + n then some ⟨[], false, false⟩
      else List.lookup j s.subjects := by
  induction n generalizing s with
  | zero =>
    have hc : ¬(s.messageId < j ∧ j ≤ s.messageId + 0) := by omega
    exact (if_neg hc).symm
  | succ n ih =>
    have h : sendN (n + 1) s = sendN n (sendMessage s).1 := rfl
    rw [h, ih (sendMessage s).1]
    have h2 : (sendMessage s).1.messageId = s.messageId + 1 := rfl
    have h3 : (sendMessage s).1.subjects
        = (s.messageId + 1, (⟨[], false, false⟩ : SubjectState)) :: s.subjects := rfl
    rw [h2, h3]
    by_cases hj : j = s.messageId + 1
    · subst hj
      have hc1 : ¬(s.messageId + 1 < s.messageId + 1 ∧ s.messageId + 1 ≤ s.messageId + 1 + n) := by
        omega
      have hc2 : s.messageId < s.messageId + 1 ∧ s.messageId + 1 ≤ s.messageId + (n + 1) := by
        omega
      simp [hc1, hc2, List.lookup]
    · have hbe : (j == s.messageId + 1) = false := by simpa using hj
      by_cases hlo : s.messageId < j ∧ j ≤ s.messageId + (n + 1)
      · have hhi : s.messageId + 1 < j ∧ j ≤ s.messageId + 1 + n := by omega
        simp [hhi, hlo]
      · have hhi : ¬(s.messageId + 1 < j ∧ j ≤ s.messageId + 1 + n) := by omega
        simp [hhi, hlo, List.lookup, hbe]

/-- Invariant tying a client state to `n` outstanding one-shot calls with ids
`1..n`: the routing table maps exactly those ids to their subjects, and every
such subject is live (not stopped). -/
def GoodAt (n : Nat) (s : ClientState) : Prop :=
  (∀ j : Nat, List.lookup j s.replies = if 1 ≤ j ∧ j ≤ n then some j else none) ∧
  (∀ k : Nat, 1 ≤ k → k ≤ n →
    ∃ rc : List ServerMessage, List.lookup k s.subjects = some ⟨rc, false, false⟩)

theorem goodAt_sendN (n : Nat) : GoodAt n (sendN n initClient) := by
  constructor
  · intro j
    rw [sendN_replies_lookup]
    have hm : initClient.messageId = 0 := rfl
    have hr : List.lookup j initClient.replies = none := rfl
    rw [hm, hr]
    by_cases hc : 1 ≤ j ∧ j ≤ n
    · have hc2 : 0 < j ∧ j ≤ 0 + n := by omega
      rw [if_pos hc2, if_pos hc]
    · have hc2 : ¬(0 < j ∧ j ≤ 0 + n) := by omega
      rw [if_neg hc2, if_neg hc]
  · intro k hk1 hkn
    refine ⟨[], ?_⟩
    rw [sendN_subjects_lookup]
    have hm : initClient.messageId = 0 := rfl
    rw [hm]
    have hc : 0 < k ∧ k ≤ 0 + n := by omega
    rw [if_pos hc]

theorem receivedBy_sendN (n k : Nat) (hk1 : 1 ≤ k) (hkn : k ≤ n) :
    receivedBy (sendN n initClient) k = [] := by
  unfold receivedBy
  rw [sendN_subjects_lookup]
  have hm : initClient.messageId = 0 := rfl
  rw [hm]
  have hc : 0 < k ∧ k ≤ 0 + n := by omega
  rw [if_pos hc]
  rfl

theorem subjects_lookup_update (s : ClientState) (j k : Nat) (f : SubjectState → SubjectState) :
    List.lookup k (updateSubject s j f).subjects =
      (List.lookup k s.subjects).map (fun v => if k = j then f v else v) := by
  unfold updateSubject
  exact lookup_map_update s.subjects j k f

theorem onMessage_eq_entity (s : ClientState) (m : ServerMessage)
    (hent : isEntityBroadcast m.type = true) :
    onMessage s m = { s with entityDelivered := s.entityDelivered ++ [m] } := by
  unfold onMessage
  rw [if_pos hent]

theorem onMessage_eq_channel (s : ClientState) (m : ServerMessage)
    (hent : isEntityBroadcast m.type = false) (hch : m.type = "channel") :
    onMessage s m = s := by
  unfold onMessage
  rw [hent]
  simp [hch]

theorem onMessage_eq_deliver (s : ClientState) (m : ServerMessage) (subjId : Nat)
    (hent : isEntityBroadcast m.type = false) (hch : m.type ≠ "channel")
    (hl : List.lookup m.id s.replies = some subjId) :
    onMessage s m = deliverToSubject s subjId m := by
  unfold onMessage
  rw [hent, hl]
  simp [hch]

theorem onMessage_eq_dropped (s : ClientState) (m : ServerMessage)
    (hent : isEntityBroadcast m.type = false) (hch : m.type ≠ "channel")
    (hl : List.lookup m.id s.replies = none) :
    onMessage s m = { s with droppedLog := s.droppedLog ++ [m] } := by
  unfold onMessage
  rw [hent, hl]
  simp [hch]

theorem onMessage_preserves_good (n : Nat) (s : ClientState) (m : ServerMessage)
    (hG : GoodAt n s) : GoodAt n (onMessage s m) := by
  by_cases hent : isEntityBroadcast m.type
  · rw [onMessage_eq_entity s m hent]
    exact hG
  · have hentf : isEntityBroadcast m.type = false := by simpa using hent
    by_cases hch : m.type = "channel"
    · rw [onMessage_eq_channel s m hentf hch]
      exact hG
    · by_cases hin : 1 ≤ m.id ∧ m.id ≤ n
      · have hl : List.lookup m.id s.replies = some m.id := by rw [hG.1 m.id, if_pos hin]
        rw [onMessage_eq_deliver s m m.id hentf hch hl]
        refine ⟨fun j => hG.1 j, fun k hk1 hkn => ?_⟩
        rcases hG.2 k hk1 hkn with ⟨rc, hrc⟩
        unfold deliverToSubject
        rw [subjects_lookup_update, hrc]
        by_cases hkm : k = m.id
        · exact ⟨rc ++ [m], by simp [hkm]⟩
        · exact ⟨rc, by simp [hkm]⟩
      · have hl : List.lookup m.id s.replies = none := by rw [hG.1 m.id, if_neg hin]
        rw [onMessage_eq_dropped s m hentf hch hl]
        exact ⟨fun j => hG.1 j, fun k hk1 hkn => hG.2 k hk1 hkn⟩

theorem receivedBy_onMessage (n : Nat) (s : ClientState) (m : ServerMessage) (k : Nat)
    (hG : GoodAt n s) (hk1 : 1 ≤ k) (hkn : k ≤ n) :
    receivedBy (onMessage s m) k =
      receivedBy s k ++ (if routable m && m.id == k then [m] else []) := by
  by_cases hent : isEntityBroadcast m.type
  · rw [onMessage_eq_entity s m hent]
    simp [routable, hent, receivedBy]
  · have hentf : isEntityBroadcast m.type = false := by simpa using hent
    by_cases hch : m.type = "channel"
    · rw [onMessage_eq_channel s m hentf hch]
      simp [routable, hch]
    · have hro : routable m = true := by simp [routable, hentf, hch]
      rcases hG.2 k hk1 hkn with ⟨rc, hrc⟩
      have hrk : receivedBy s k = rc := by
        unfold receivedBy
        rw [hrc]
        rfl
      by_cases hmk : m.id = k
      · subst hmk
        have hl : List.lookup m.id s.replies = some m.id := by
          rw [hG.1 m.id, if_pos ⟨hk1, hkn⟩]
        rw [onMessage_eq_deliver s m m.id hentf hch hl]
        unfold receivedBy deliverToSubject
        rw [subjects_lookup_update, hrc]
        simp [hro, hrk]
      · have hbe : (m.id == k) = false := by simpa using hmk
        have hkm : ¬k = m.id := fun h => hmk h.symm
        by_cases hin : 1 ≤ m.id ∧ m.id ≤ n
        · have hl : List.lookup m.id s.replies = some m.id := by rw [hG.1 m.id, if_pos hin]
          rw [onMessage_eq_deliver s m m.id hentf hch hl]
          unfold receivedBy deliverToSubject
          rw [subjects_lookup_update, hrc]
          simp [hbe, hkm, hrk]
        · have hl : List.lookup m.id s.replies = none := by rw [hG.1 m.id, if_neg hin]
          rw [onMessage_eq_dropped s m hentf hch hl]
          simp [hbe, receivedBy, hrc]

theorem processFrames_receivedBy (n : Nat) (fs : List ServerMessage) (s : ClientState) (k : Nat)
    (hG : GoodAt n s) (hk1 : 1 ≤ k) (hkn : k ≤ n) :
    receivedBy (processFrames s fs) k
        = receivedBy s k ++ fs.filter (fun m => routable m && m.id == k)
      ∧ GoodAt n (processFrames s fs) := by
  induction fs generalizing s with
  | nil => exact ⟨by simp [processFrames], hG⟩
  | cons m fs ih =>
    have hG1 : GoodAt n (onMessage s m) := onMessage_preserves_good n s m hG
    have hstep := receivedBy_onMessage n s m k hG hk1 hkn
    have hp : processFrames s (m :: fs) = processFrames (onMessage s m) fs := rfl
    rcases ih (onMessage s m) hG1 with ⟨hrec, hGf⟩
    rw [hp, hrec, hstep]
    refine ⟨?_, hGf⟩
    by_cases hf : routable m && m.id == k
    · simp [List.filter, hf]
    · simp only [Bool.not_eq_true] at hf
      simp [List.filter, hf]

/-- C1: for `n` one-shot calls issued concurrently on one connection before any
reply arrives (`sendNIds n initClient`), the allocated message ids are pairwise
distinct, and for any sequence of inbound reply frames processed afterwards,
the subject returned for a call receives exactly the frames whose `id` equals
the message id allocated to that call — never a frame bearing a different id. -/
theorem c1_no_crosstalk (n : Nat) (fs : List ServerMessage) :
    (sendNIds n initClient).2.Nodup ∧
    ∀ mid ∈ (sendNIds n initClient).2,
      receivedBy (processFrames (sendNIds n initClient).1 fs) mid =
        fs.filter (fun m => routable m && m.id == mid) := by
  have hids : (sendNIds n initClient).2 = List.range' 1 n := by
    rw [sendNIds_snd]
    rfl
  constructor
  · rw [hids]
    exact List.nodup_range' 1 n
  · intro mid hmem
    rw [hids] at hmem
    have hrange : 1 ≤ mid ∧ mid < 1 + n := List.mem_range'_1.mp hmem
    have hk1 : 1 ≤ mid := hrange.1
    have hkn : mid ≤ n := by omega
    have hfst : (sendNIds n initClient).1 = sendN n initClient := sendN_eq_sendNIds_fst n initClient
    rw [hfst]
    have h := processFrames_receivedBy n fs (sendN n initClient) mid (goodAt_sendN n) hk1 hkn
    rw [h.1, receivedBy_sendN n mid hk1 hkn]
    rfl

/-- Witness for `c1_no_crosstalk`: two concurrent calls (ids 1 and 2), three
frames; the subject of call 1 receives exactly the two frames with id 1. -/
theorem c1_no_crosstalk_witness :
    receivedBy (processFrames (sendNIds 2 initClient).1
        [⟨"next/json", 1⟩, ⟨"next/json", 2⟩, ⟨"complete", 1⟩]) 1 =
      [⟨"next/json", 1⟩, ⟨"complete", 1⟩] := by
  have h := (c1_no_crosstalk 2 [⟨"next/json", 1⟩, ⟨"next/json", 2⟩, ⟨"complete", 1⟩]).2 1
    (by decide)
  rw [h]
  rfl

/-- Observable operations over a client's lifetime, used to track the id
counter across connect / disconnect cycles. -/
inductive ClientOp where
  | send
  | disconnectOp
  | reconnectOp
  | frame (m : ServerMessage)
  | close (mid : Nat)
deriving DecidableEq, Repr

/-- Apply one operation; `send` additionally reports the allocated id. -/
def applyOp (s : ClientState) : ClientOp → ClientState × Option Nat
  | .send => ((sendMessage s).1, some (sendMessage s).2)
  | .disconnectOp => (disconnect s, none)
  | .reconnectOp => (connectSuccess s, none)
  | .frame m => (onMessage s m, none)
  | .close mid => (closeSubject s mid, none)

/-- Run a sequence of operations, collecting every allocated message id in
order. -/
def runOps : ClientState → List ClientOp → ClientState × List Nat
  | s, [] => (s, [])
  | s, op :: ops =>
    ((runOps (applyOp s op).1 ops).1,
      (applyOp s op).2.toList ++ (runOps (applyOp s op).1 ops).2)

theorem applyOp_messageId_le (s : ClientState) (op : ClientOp) :
    s.messageId ≤ (applyOp s op).1.messageId := by
  cases op with
  | send => exact Nat.le_succ _
  | disconnectOp => exact Nat.le_refl _
  | reconnectOp => exact Nat.le_refl _
  | close mid => exact Nat.le_refl _
  | frame m =>
    show s.messageId ≤ (onMessage s m).messageId
    by_cases hent : isEntityBroadcast m.type
    · rw [onMessage_eq_entity s m hent]
    · have hentf : isEntityBroadcast m.type = false := by simpa using hent
      by_cases hch : m.type = "channel"
      · rw [onMessage_eq_channel s m hentf hch]
      · cases hl : List.lookup m.id s.replies with
        | some subjId =>
          rw [onMessage_eq_deliver s m subjId hentf hch hl]
          exact Nat.le_refl _
        | none =>
          rw [onMessage_eq_dropped s m hentf hch hl]

theorem runOps_messageId_le (s : ClientState) (ops : List ClientOp) :
    s.messageId ≤ (runOps s ops).1.messageId := by
  induction ops generalizing s with
  | nil => exact Nat.le_refl _
  | cons op ops ih =>
    exact Nat.le_trans (applyOp_messageId_le s op) (ih (applyOp s op).1)

theorem runOps_allocs_gt (s : ClientState) (ops : List ClientOp) :
    ∀ mid ∈ (runOps s ops).2, s.messageId < mid := by
  induction ops generalizing s with
  | nil => intro mid h; cases h
  | cons op ops ih =>
    intro mid h
    have hsplit : (runOps s (op :: ops)).2
        = (applyOp s op).2.toList ++ (runOps (applyOp s op).1 ops).2 := rfl
    rw [hsplit] at h
    rcases List.mem_append.mp h with h1 | h2
    · cases op <;> simp [applyOp, Option.toList] at h1
      subst h1
      exact Nat.lt_succ_self _
    · have := ih (applyOp s op).1 mid h2
      exact Nat.lt_of_le_of_lt (applyOp_messageId_le s op) this

theorem runOps_allocs_chain (s : ClientState) (ops : List ClientOp) :
    List.Chain' (· < ·) (runOps s ops).2 := by
  induction ops generalizing s with
  | nil => exact List.chain'_nil
  | cons op ops ih =>
    have hsplit : (runOps s (op :: ops)).2
        = (applyOp s op).2.toList ++ (runOps (applyOp s op).1 ops).2 := rfl
    rw [hsplit]
    cases hop : op with
    | send =>
      have hto : (applyOp s ClientOp.send).2.toList = [s.messageId + 1] := rfl
      rw [hto]
      have hrest := ih (applyOp s ClientOp.send).1
      refine List.chain'_cons'.mpr ⟨?_, hrest⟩
      intro b hb
      have hmem : b ∈ (runOps (applyOp s ClientOp.send).1 ops).2 :=
        List.mem_of_mem_head? hb
      have := runOps_allocs_gt (applyOp s ClientOp.send).1 ops b hmem
      have hmid : (applyOp s ClientOp.send).1.messageId = s.messageId + 1 := rfl
      omega
    | disconnectOp => exact ih _
    | reconnectOp => exact ih _
    | frame m => exact ih _
    | close mid => exact ih _

/-- C4 counterexample: after two calls (ids 1 and 2), a `disconnect()` and a
successful reconnect, the next call allocates id 3 — not 1, as a reset id
space would require.  `disconnect()` never touches `this.messageId`. -/
theorem c4_counterexample :
    (runOps initClient
        [ClientOp.send, ClientOp.send, ClientOp.disconnectOp, ClientOp.reconnectOp,
          ClientOp.send]).2 = [1, 2, 3]
    ∧ (runOps initClient
        [ClientOp.send, ClientOp.send, ClientOp.disconnectOp, ClientOp.reconnectOp,
          ClientOp.send]).2.getLast? ≠ some 1 := by
  constructor <;> decide

/-- C4 (amended): message ids are allocated monotonically increasing and never
reused across the client's entire lifetime — including across
disconnect/reconnect cycles, because `disconnect()` (and a subsequent
reconnect) leaves the `messageId` counter untouched, so after a reconnect the
id space continues from the previous value instead of restarting at 1. -/
theorem c4_ids_monotonic (ops : List ClientOp) (s : ClientState) :
    List.Chain' (· < ·) (runOps initClient ops).2
    ∧ (disconnect s).messageId = s.messageId
    ∧ (connectSuccess s).messageId = s.messageId := by
  exact ⟨runOps_allocs_chain initClient ops, rfl, rfl⟩

/-- Whether the subject identified by `k` has been stopped. -/
def stoppedBy (s : ClientState) (k : Nat) : Bool :=
  ((List.lookup k s.subjects).map SubjectState.stopped).getD false

/-- Whether the subject identified by `k` has been put into error state. -/
def erroredBy (s : ClientState) (k : Nat) : Bool :=
  ((List.lookup k s.subjects).map SubjectState.errored).getD false

theorem routable_spec (m : ServerMessage) (h : routable m = true) :
    isEntityBroadcast m.type = false ∧ m.type ≠ "channel" := by
  unfold routable at h
  rcases Bool.and_eq_true_iff.mp h with ⟨h1, h2⟩
  constructor
  · simpa using h1
  · simpa using h2

theorem sendMessage_replies_lookup_self (s : ClientState) :
    List.lookup (sendMessage s).2 (sendMessage s).1.replies = some (sendMessage s).2 := by
  have h : (sendMessage s).1.replies
      = (s.messageId + 1, s.messageId + 1) :: s.replies := rfl
  have h2 : (sendMessage s).2 = s.messageId + 1 := rfl
  rw [h, h2]
  simp [List.lookup]

theorem sendMessage_subjects_lookup_self (s : ClientState) :
    List.lookup (sendMessage s).2 (sendMessage s).1.subjects
      = some ⟨[], false, false⟩ := by
  have h : (sendMessage s).1.subjects
      = (s.messageId + 1, (⟨[], false, false⟩ : SubjectState)) :: s.subjects := rfl
  have h2 : (sendMessage s).2 = s.messageId + 1 := rfl
  rw [h, h2]
  simp [List.lookup]

/-- C10: `sendMessage` installs the reply-routing entry for the newly
allocated id synchronously, before the connection is awaited and before the
frame is sent: in the state `sendMessage` returns, (a) the replies table
already maps the new id to the new subject, (b) any routable reply frame
bearing that id processed by `onMessage` is delivered to the returned subject,
and (c) if establishing the connection fails, the rejection continuation puts
that very subject into error state, so the failure is not lost. -/
theorem c10_routing_installed_before_send (s : ClientState) (m : ServerMessage)
    (hro : routable m = true) (hid : m.id = (sendMessage s).2) :
    List.lookup (sendMessage s).2 (sendMessage s).1.replies = some (sendMessage s).2
    ∧ receivedBy (onMessage (sendMessage s).1 m) (sendMessage s).2 = [m]
    ∧ erroredBy (connectFailed (sendMessage s).1 (sendMessage s).2) (sendMessage s).2 = true := by
  rcases routable_spec m hro with ⟨hent, hch⟩
  have hl : List.lookup m.id (sendMessage s).1.replies = some (sendMessage s).2 := by
    rw [hid]
    exact sendMessage_replies_lookup_self s
  refine ⟨sendMessage_replies_lookup_self s, ?_, ?_⟩
  · rw [onMessage_eq_deliver (sendMessage s).1 m (sendMessage s).2 hent hch hl]
    unfold receivedBy deliverToSubject
    rw [subjects_lookup_update, sendMessage_subjects_lookup_self s]
    simp
  · unfold erroredBy connectFailed subjectError
    rw [subjects_lookup_update, sendMessage_subjects_lookup_self s]
    simp

/-- Witness for `c10_routing_installed_before_send` at a fresh client and the
frame `next/json` with id 1. -/
theorem c10_routing_installed_before_send_witness :
    List.lookup (sendMessage initClient).2 (sendMessage initClient).1.replies
        = some (sendMessage initClient).2
    ∧ receivedBy (onMessage (sendMessage initClient).1 ⟨"next/json", 1⟩)
        (sendMessage initClient).2 = [⟨"next/json", 1⟩]
    ∧ erroredBy (connectFailed (sendMessage initClient).1 (sendMessage initClient).2)
        (sendMessage initClient).2 = true :=
  c10_routing_installed_before_send initClient ⟨"next/json", 1⟩ (by decide) (by decide)

theorem lookup_filter_ne {α : Type} (l : List (Nat × α)) (mid : Nat) :
    List.lookup mid (l.filter (fun p => p.1 ≠ mid)) = none := by
  induction l with
  | nil => rfl
  | cons hd tl ih =>
    rcases hd with ⟨a, b⟩
    by_cases ha : a = mid
    · simpa [List.filter, ha] using ih
    · have hne : ¬mid = a := fun h => ha h.symm
      have hbe : (mid == a) = false := by simpa using hne
      simpa [List.filter, ha, List.lookup, hbe] using ih

theorem filter_ne_idem {α : Type} (l : List (Nat × α)) (mid : Nat) :
    ((l.filter (fun p => p.1 ≠ mid)).filter (fun p => p.1 ≠ mid))
      = l.filter (fun p => p.1 ≠ mid) := by
  induction l with
  | nil => rfl
  | cons hd tl ih =>
    by_cases ha : hd.1 = mid
    · simp [List.filter, ha, ih]
    · simp [List.filter, ha, ih]

theorem teardownRuns_lookup_runTeardown (s : ClientState) (mid k : Nat) :
    List.lookup k (runTeardown s mid).teardownRuns =
      (List.lookup k s.teardownRuns).map (fun v => if k = mid then v + 1 else v) := by
  unfold runTeardown
  exact lookup_map_update s.teardownRuns mid k (fun v => v + 1)

theorem closeSubject_replies (s : ClientState) (mid : Nat) :
    (closeSubject s mid).replies = s.replies.filter (fun p => p.1 ≠ mid) := rfl

theorem completeMap_idem (l : List (Nat × SubjectState)) (mid : Nat) :
    ((l.map (fun p => (p.1, if p.1 = mid
          then (if p.2.stopped then p.2 else { p.2 with stopped := true }) else p.2))).map
        (fun p => (p.1, if p.1 = mid
          then (if p.2.stopped then p.2 else { p.2 with stopped := true }) else p.2)))
      = l.map (fun p => (p.1, if p.1 = mid
          then (if p.2.stopped then p.2 else { p.2 with stopped := true }) else p.2)) := by
  induction l with
  | nil => rfl
  | cons hd tl ih =>
    rcases hd with ⟨a, v⟩
    by_cases ha : a = mid
    · by_cases hst : v.stopped
      · simp [ha, hst, ih]
      · simp [ha, hst, ih]
    · simpa [ha] using ih

theorem closeSubject_subjects (s : ClientState) (mid : Nat) :
    (closeSubject s mid).subjects
      = s.subjects.map (fun p => (p.1, if p.1 = mid
          then (if p.2.stopped then p.2 else { p.2 with stopped := true }) else p.2)) := rfl

/-- C6 counterexample: for the subject of a one-shot call (id 1) on a fresh
client, calling `close()` twice invokes the registered teardown twice, not at
most once: `tearDown` is a stateless helper that invokes the stored function
on every call, so the second `close()` re-runs
`() => delete this.replies[messageId]`. -/
theorem c6_counterexample :
    ¬ (teardownCount (closeSubject (closeSubject (sendMessage initClient).1 1) 1) 1 ≤ 1) := by
  decide

/-- C6 (amended): calling `close()` twice invokes the registered teardown
function once per call (twice in total — `tearDown` does not guard
re-invocation), but the net effect on the client equals a single `close()`
and nothing throws: deleting the routing entry is idempotent and `complete()`
on a stopped subject is a no-op, so replies table and subject state are
identical after one or two closes.  Moreover, once a manual `close()` has run,
the routing entry for the exchange id is gone, so a terminal frame (e.g.
`complete` or `error`) arriving afterwards is logged and dropped by
`onMessage`: it is not delivered to the subject and does not re-invoke the
teardown or any unsubscribe path. -/
theorem c6_close_idempotent_effect (s : ClientState) (m : ServerMessage) (mid c : Nat)
    (hro : routable m = true) (hid : m.id = mid)
    (hc : List.lookup mid s.teardownRuns = some c) :
    (closeSubject (closeSubject s mid) mid).replies = (closeSubject s mid).replies
    ∧ (closeSubject (closeSubject s mid) mid).subjects = (closeSubject s mid).subjects
    ∧ teardownCount (closeSubject s mid) mid = c + 1
    ∧ teardownCount (closeSubject (closeSubject s mid) mid) mid = c + 2
    ∧ List.lookup mid (closeSubject s mid).replies = none
    ∧ onMessage (closeSubject s mid) m
        = { closeSubject s mid with droppedLog := (closeSubject s mid).droppedLog ++ [m] } := by
  rcases routable_spec m hro with ⟨hent, hch⟩
  have hnone : List.lookup mid (closeSubject s mid).replies = none := by
    rw [closeSubject_replies]
    exact lookup_filter_ne s.replies mid
  have htd1 : teardownCount (closeSubject s mid) mid = c + 1 := by
    unfold teardownCount
    have h : (closeSubject s mid).teardownRuns = (runTeardown s mid).teardownRuns := rfl
    rw [h, teardownRuns_lookup_runTeardown, hc]
    simp
  refine ⟨?_, ?_, htd1, ?_, hnone, ?_⟩
  · rw [closeSubject_replies, closeSubject_replies]
    exact filter_ne_idem s.replies mid
  · rw [closeSubject_subjects, closeSubject_subjects]
    exact completeMap_idem s.subjects mid
  · unfold teardownCount
    have h : (closeSubject (closeSubject s mid) mid).teardownRuns
        = (runTeardown (closeSubject s mid) mid).teardownRuns := rfl
    rw [h, teardownRuns_lookup_runTeardown]
    have h2 : (closeSubject s mid).teardownRuns = (runTeardown s mid).teardownRuns := rfl
    rw [h2, teardownRuns_lookup_runTeardown, hc]
    simp
  · have hl : List.lookup m.id (closeSubject s mid).replies = none := by
      rw [hid]
      exact hnone
    exact onMessage_eq_dropped (closeSubject s mid) m hent hch hl

/-- Witness for `c6_close_idempotent_effect`: one-shot call on a fresh client,
`complete` frame with id 1 arriving after the manual close. -/
theorem c6_close_idempotent_effect_witness :
    (closeSubject (closeSubject (sendMessage initClient).1 1) 1).replies
        = (closeSubject (sendMessage initClient).1 1).replies
    ∧ (closeSubject (closeSubject (sendMessage initClient).1 1) 1).subjects
        = (closeSubject (sendMessage initClient).1 1).subjects
    ∧ teardownCount (closeSubject (sendMessage initClient).1 1) 1 = 0 + 1
    ∧ teardownCount (closeSubject (closeSubject (sendMessage initClient).1 1) 1) 1 = 0 + 2
    ∧ List.lookup 1 (closeSubject (sendMessage initClient).1 1).replies = none
    ∧ onMessage (closeSubject (sendMessage initClient).1 1) ⟨"complete", 1⟩
        = { closeSubject (sendMessage initClient).1 1 with
              droppedLog := (closeSubject (sendMessage initClient).1 1).droppedLog
                ++ [⟨"complete", 1⟩] } :=
  c6_close_idempotent_effect (sendMessage initClient).1 ⟨"complete", 1⟩ 1 0
    (by decide) (by decide) (by decide)

/-- Outcome of a pending `firstAndClose()` promise. -/
inductive FCRes where
  | pending
  | resolved (m : ServerMessage)
  | rejected
deriving DecidableEq, Repr

/-- An event that can affect a pending `firstAndClose()`: an inbound frame
processed by `onMessage`, or the failure of the connection attempt scheduled
by `sendMessage` (whose rejection handler is `subject.error`). -/
inductive InEvent where
  | frame (m : ServerMessage)
  | connectFail
deriving DecidableEq, Repr

/-- One step of the `firstAndClose()` protocol for the exchange with id `mid`:
`this.pipe(first()).subscribe(resolve, reject).add(() => this.close())`.
While pending, the first frame that `onMessage` routes to this subject
resolves the promise with that frame — whatever its `type` — after which the
`first()` subscription finalizes and the add-teardown runs `subject.close()`
(teardown plus `complete()`).  A `subject.error` (connection failure) while
pending rejects.  After settlement the routing entry is gone, so further
frames take the ordinary `onMessage` path and `subject.error` is a no-op on
the stopped subject. -/
def fcStep (mid : Nat) (st : ClientState × FCRes) (e : InEvent) : ClientState × FCRes :=
  match e with
  | .frame m =>
    match st.2 with
    | .pending =>
      if routable m = true ∧ List.lookup m.id st.1.replies = some mid then
        (closeSubject (deliverToSubject st.1 mid m) mid, .resolved m)
      else (onMessage st.1 m, .pending)
    | r => (onMessage st.1 m, r)
  | .connectFail =>
    match st.2 with
    | .pending => (subjectError st.1 mid, .rejected)
    | r => (subjectError st.1 mid, r)

/-- Run `firstAndClose()` for exchange `mid` from client state `s` over a
sequence of events. -/
def fcRun (mid : Nat) (s : ClientState) (events : List InEvent) : ClientState × FCRes :=
  events.foldl (fcStep mid) (s, .pending)

/-- C7 counterexample: a one-shot call on a fresh client whose first reply is
the error-kind frame `{type: 'error', id: 1}` RESOLVES `firstAndClose()` with
that frame — it does not reject.  Error frames are delivered through
`replies[id] -> subject.next`, so `first()` treats them as ordinary values;
only the caller (`getActionTypes` / `authenticate`) inspects
`reply.type === 'error'` and throws afterwards. -/
theorem c7_counterexample :
    (fcRun 1 (sendMessage initClient).1 [InEvent.frame ⟨"error", 1⟩]).2
        = FCRes.resolved ⟨"error", 1⟩
    ∧ (fcRun 1 (sendMessage initClient).1 [InEvent.frame ⟨"error", 1⟩]).2 ≠ FCRes.rejected := by
  constructor <;> decide

/-- C7 (amended): `firstAndClose()` resolves with the first reply delivered to
the subject — including an error-kind frame, which callers must inspect
themselves — and then automatically tears down: the routing entry for the
exchange's message id is removed and the subject is completed.  The promise
rejects (typed failure) only when the subject itself errors before any reply
is delivered, which is what happens when establishing the connection fails. -/
theorem c7_first_resolves_then_tears_down (s : ClientState) (f : ServerMessage)
    (hro : routable f = true) (hid : f.id = (sendMessage s).2) :
    (fcRun (sendMessage s).2 (sendMessage s).1 [InEvent.frame f]).2 = FCRes.resolved f
    ∧ List.lookup (sendMessage s).2
        (fcRun (sendMessage s).2 (sendMessage s).1 [InEvent.frame f]).1.replies = none
    ∧ stoppedBy (fcRun (sendMessage s).2 (sendMessage s).1 [InEvent.frame f]).1
        (sendMessage s).2 = true
    ∧ (fcRun (sendMessage s).2 (sendMessage s).1 [InEvent.connectFail]).2 = FCRes.rejected := by
  have hl : List.lookup f.id (sendMessage s).1.replies = some (sendMessage s).2 := by
    rw [hid]
    exact sendMessage_replies_lookup_self s
  have hcond : routable f = true
      ∧ List.lookup f.id (sendMessage s).1.replies = some (sendMessage s).2 := ⟨hro, hl⟩
  have hrun : fcRun (sendMessage s).2 (sendMessage s).1 [InEvent.frame f]
      = (closeSubject (deliverToSubject (sendMessage s).1 (sendMessage s).2 f) (sendMessage s).2,
          FCRes.resolved f) := by
    unfold fcRun
    simp only [List.foldl, fcStep]
    rw [if_pos hcond]
  refine ⟨?_, ?_, ?_, ?_⟩
  · rw [hrun]
  · rw [hrun]
    exact lookup_filter_ne _ _
  · rw [hrun]
    unfold stoppedBy
    rw [closeSubject_subjects]
    have hmaps := lookup_map_update
      ((deliverToSubject (sendMessage s).1 (sendMessage s).2 f).subjects)
      (sendMessage s).2 (sendMessage s).2
      (fun v => if v.stopped then v else { v with stopped := true })
    rw [hmaps]
    unfold deliverToSubject
    rw [subjects_lookup_update, sendMessage_subjects_lookup_self s]
    simp
  · rfl

/-- Witness for `c7_first_resolves_then_tears_down` on a fresh client with a
`next/json` reply for id 1. -/
theorem c7_first_resolves_then_tears_down_witness :
    (fcRun (sendMessage initClient).2 (sendMessage initClient).1
        [InEvent.frame ⟨"next/json", 1⟩]).2 = FCRes.resolved ⟨"next/json", 1⟩
    ∧ List.lookup (sendMessage initClient).2
        (fcRun (sendMessage initClient).2 (sendMessage initClient).1
          [InEvent.frame ⟨"next/json", 1⟩]).1.replies = none
    ∧ stoppedBy (fcRun (sendMessage initClient).2 (sendMessage initClient).1
        [InEvent.frame ⟨"next/json", 1⟩]).1 (sendMessage initClient).2 = true
    ∧ (fcRun (sendMessage initClient).2 (sendMessage initClient).1
        [InEvent.connectFail]).2 = FCRes.rejected :=
  c7_first_resolves_then_tears_down initClient ⟨"next/json", 1⟩ (by decide) (by decide)

/-- The action type descriptor cached per (controller, action):
`{parameters, returnType}` (content irrelevant to the claims; kept opaque as
strings). -/
structure ActionTypesM where
  parameters : String
  returnType : String
deriving DecidableEq, Repr

/-- `SocketClient` state relevant to `getActionTypes`: the client plus the
`cachedActionsTypes` table, flattened from the nested
`{controller: {action: types}}` objects to a (controller, action) key. -/
structure GatState where
  client : ClientState
  cache : List ((String × String) × ActionTypesM)
deriving DecidableEq, Repr

/-- The synchronous part of `getActionTypes(controller, action)` up to its
first await: ensure the per-controller object exists, check
`cachedActionsTypes[controller][actionName]`, and on a miss call
`sendMessage({name: 'actionTypes', controller, action})` and suspend on
`firstAndClose()` (returning the awaited exchange id).  On a hit nothing is
sent and no id is allocated.  The client is taken as connected, so the
`connect().then(() => send(message))` continuation fires at once and the
request is appended to the outbox. -/
def gatBegin (g : GatState) (c a : String) : GatState × Option Nat :=
  match List.lookup (c, a) g.cache with
  | some _ => (g, none)
  | none =>
    ({ g with
        client := connectThenSend (sendMessage g.client).1
          ⟨(sendMessage g.client).2, "actionTypes", c, a⟩ },
      some (sendMessage g.client).2)

/-- The continuation of `getActionTypes` after its await, for an
`actionTypes/result` reply: populate the cache with
`{parameters: reply.parameters, returnType: reply.returnType}`. -/
def gatCacheReply (g : GatState) (c a : String) (t : ActionTypesM) : GatState :=
  { g with cache := ((c, a), t) :: g.cache }

/-- Number of `actionTypes` requests for (controller, action) sent so far. -/
def countActionTypes (out : List OutMsg) (c a : String) : Nat :=
  (out.filter (fun m => m.name = "actionTypes" ∧ m.controller = c ∧ m.action = a)).length

/-- C3 counterexample: two `getActionTypes('c', 'a')` callers that both run
their cache check while the first fetch is still in flight (no reply yet) each
send their own `actionTypes` request: two requests for the same key go out,
not at most one.  The cache is only populated after the reply arrives, and no
in-flight promise is keyed, so the second caller misses too. -/
theorem c3_counterexample :
    countActionTypes
        (gatBegin (gatBegin ⟨initClient, []⟩ "c" "a").1 "c" "a").1.client.outbox "c" "a" = 2
    ∧ ¬ (countActionTypes
        (gatBegin (gatBegin ⟨initClient, []⟩ "c" "a").1 "c" "a").1.client.outbox "c" "a" ≤ 1) := by
  constructor <;> decide

/-- C3 (amended): `getActionTypes` de-duplicates only through the result
cache, which is populated when a reply arrives — not through in-flight
promises.  A caller that finds the (controller, action) key cached sends
nothing and allocates no exchange; a caller that misses — including every
concurrent caller that starts while the first fetch is still in flight —
sends its own `actionTypes` request, so N concurrent first-time callers send N
requests. -/
theorem c3_dedup_only_via_cache (g : GatState) (c a : String) :
    (∀ t : ActionTypesM, List.lookup (c, a) g.cache = some t →
        (gatBegin g c a).1 = g ∧ (gatBegin g c a).2 = none)
    ∧ (List.lookup (c, a) g.cache = none →
        (gatBegin g c a).1.client.outbox
            = g.client.outbox ++ [⟨g.client.messageId + 1, "actionTypes", c, a⟩]
          ∧ (gatBegin g c a).2 = some (g.client.messageId + 1)) := by
  constructor
  · intro t ht
    unfold gatBegin
    rw [ht]
    exact ⟨rfl, rfl⟩
  · intro hnone
    unfold gatBegin
    rw [hnone]
    exact ⟨rfl, rfl⟩

/-- Witness for `c3_dedup_only_via_cache`: both branches exercised — a cache
hit after `gatCacheReply`, and a miss on the fresh state. -/
theorem c3_dedup_only_via_cache_witness :
    ((gatBegin (gatCacheReply ⟨initClient, []⟩ "c" "a" ⟨"p", "r"⟩) "c" "a").1
        = gatCacheReply ⟨initClient, []⟩ "c" "a" ⟨"p", "r"⟩
      ∧ (gatBegin (gatCacheReply ⟨initClient, []⟩ "c" "a" ⟨"p", "r"⟩) "c" "a").2 = none)
    ∧ ((gatBegin ⟨initClient, []⟩ "c" "a").1.client.outbox
          = initClient.outbox ++ [⟨initClient.messageId + 1, "actionTypes", "c", "a"⟩]
        ∧ (gatBegin ⟨initClient, []⟩ "c" "a").2 = some (initClient.messageId + 1)) :=
  ⟨(c3_dedup_only_via_cache (gatCacheReply ⟨initClient, []⟩ "c" "a" ⟨"p", "r"⟩) "c" "a").1
      ⟨"p", "r"⟩ (by decide),
    (c3_dedup_only_via_cache ⟨initClient, []⟩ "c" "a").2 (by decide)⟩

/-- A client-side entity mirror (an `EntitySubject`).  `teardowns` holds the
notifications registered via `addTearDown`; `released` marks that the holder
has unsubscribed.  Modelled from the spec: `EntitySubject` lives in
`@marcj/glut-core`, which is not under `src/`; §4.2/§4.4 specify that a
registered teardown is invoked at most once, on release. -/
structure Mirror where
  entityName : String
  itemId : Nat
  teardowns : List OutMsg
  released : Bool
deriving DecidableEq, Repr

/-- Modelled from the spec: the `EntityState` store (`./entity-state`, not
under `src/`), §4.5: an identity-mapped table of mirrors keyed by
(entity kind, primary key); `index` maps that key to the mirror instance in
`store`, `nextMirror` allocates instance identities. -/
structure EntityStateM where
  store : List (Nat × Mirror)
  index : List ((String × Nat) × Nat)
  nextMirror : Nat
deriving DecidableEq, Repr

/-- Modelled from the spec: `EntityState.hasEntitySubject(classType, id)` —
whether a mirror for (entity kind, primary key) is already tracked (§4.5). -/
def hasEntitySubject (es : EntityStateM) (en : String) (iid : Nat) : Bool :=
  (List.lookup (en, iid) es.index).isSome

/-- Modelled from the spec: `EntityState.handleEntity(classType, item)` —
find-or-create, so that calls referencing the same entity key converge on one
mirror instance (§4.5); returns the (possibly new) mirror's identity. -/
def handleEntity (es : EntityStateM) (en : String) (iid : Nat) : EntityStateM × Nat :=
  match List.lookup (en, iid) es.index with
  | some i => (es, i)
  | none =>
    ({ store := (es.nextMirror, ⟨en, iid, [], false⟩) :: es.store
       index := ((en, iid), es.nextMirror) :: es.index
       nextMirror := es.nextMirror + 1 }, es.nextMirror)

/-- Modelled from the spec: `EntitySubject.addTearDown` — register a
notification to be sent when the mirror is released (§4.4, entity row). -/
def addTearDown (es : EntityStateM) (i : Nat) (t : OutMsg) : EntityStateM :=
  { es with store := es.store.map (fun p =>
      (p.1, if p.1 = i then { p.2 with teardowns := p.2.teardowns ++ [t] } else p.2)) }

/-- Modelled from the spec: releasing (unsubscribing) a mirror runs its
registered teardowns at most once (§4.2 idempotent teardown); returns the
notifications sent by this release. -/
def releaseMirror (es : EntityStateM) (i : Nat) : EntityStateM × List OutMsg :=
  match List.lookup i es.store with
  | none => (es, [])
  | some m =>
    if m.released then (es, [])
    else
      ({ es with store := es.store.map (fun p =>
          (p.1, if p.1 = i then { p.2 with released := true } else p.2)) },
        m.teardowns)

/-- Result of the entity branch of the first `type` frame: an empty
`EntitySubject(undefined)` when the server sent no item, or a mirror. -/
inductive EntityResolve where
  | emptySubject
  | mirror (i : Nat)
deriving DecidableEq, Repr

/-- The `reply.returnType === 'entity'` branch of `SocketClient.stream`'s
subscription handler (source lines 476-504): no item resolves an empty
subject; an unknown entity name throws; if `hasEntitySubject` already tracks
the key, `handleEntity` returns the existing mirror and it is resolved as-is
(no teardown registered); otherwise the mirror is created by `handleEntity`
and `addTearDown` registers sending `{id: reply.id, name:
'entity/unsubscribe'}` for when the holder releases it.  `known` models
`RegisteredEntities[reply.entityName]` being defined. -/
def handleEntityTypeFrame (es : EntityStateM) (replyId : Nat) (entityName : String) :
    Option Nat → Bool → Except String (EntityStateM × EntityResolve)
  | none, _ => .ok (es, .emptySubject)
  | some iid, known =>
    if known = false then
      .error ("Entity " ++ entityName ++ " not known.")
    else if hasEntitySubject es entityName iid then
      .ok ((handleEntity es entityName iid).1, .mirror (handleEntity es entityName iid).2)
    else
      .ok (addTearDown (handleEntity es entityName iid).1 (handleEntity es entityName iid).2
            ⟨replyId, "entity/unsubscribe", "", ""⟩,
          .mirror (handleEntity es entityName iid).2)

/-- C5: for a first `type` frame declaring `returnType 'entity'` with an item:
if no mirror for (entity kind, primary key) is tracked, a new mirror is
created, releasing it sends exactly one `entity/unsubscribe` carrying the
original exchange id, and a second release sends nothing; if a mirror for that
key is already tracked, the very same mirror instance is returned and the
entity state is left unchanged — in particular no unsubscribe teardown is
registered by this call. -/
theorem c5_entity_mirror_reuse (es : EntityStateM) (replyId : Nat) (en : String) (iid : Nat) :
    (List.lookup (en, iid) es.index = none →
      ∃ es2 : EntityStateM,
        handleEntityTypeFrame es replyId en (some iid) true
            = .ok (es2, .mirror es.nextMirror)
        ∧ (releaseMirror es2 es.nextMirror).2 = [⟨replyId, "entity/unsubscribe", "", ""⟩]
        ∧ (releaseMirror (releaseMirror es2 es.nextMirror).1 es.nextMirror).2 = [])
    ∧ (∀ j : Nat, List.lookup (en, iid) es.index = some j →
        handleEntityTypeFrame es replyId en (some iid) true = .ok (es, .mirror j)) := by
  constructor
  · intro hnone
    have hhas : hasEntitySubject es en iid = false := by
      unfold hasEntitySubject
      rw [hnone]
      rfl
    have hhe : handleEntity es en iid
        = ({ store := (es.nextMirror, ⟨en, iid, [], false⟩) :: es.store
             index := ((en, iid), es.nextMirror) :: es.index
             nextMirror := es.nextMirror + 1 }, es.nextMirror) := by
      unfold handleEntity
      rw [hnone]
    refine ⟨addTearDown (handleEntity es en iid).1 (handleEntity es en iid).2
        ⟨replyId, "entity/unsubscribe", "", ""⟩, ?_, ?_, ?_⟩
    · simp only [handleEntityTypeFrame]
      rw [hhas]
      simp only [Bool.false_eq_true, if_false]
      rw [hhe]
      simp
    · rw [hhe]
      unfold addTearDown releaseMirror
      simp [List.lookup]
    · rw [hhe]
      unfold addTearDown releaseMirror
      simp [List.lookup]
  · intro j hj
    have hhas : hasEntitySubject es en iid = true := by
      unfold hasEntitySubject
      rw [hj]
      rfl
    have hhe : handleEntity es en iid = (es, j) := by
      unfold handleEntity
      rw [hj]
    simp only [handleEntityTypeFrame]
    rw [hhas, hhe]
    simp

/-- Witness for `c5_entity_mirror_reuse`: fresh entity state, then the same
frame again on the state where the mirror is tracked. -/
theorem c5_entity_mirror_reuse_witness :
    (∃ es2 : EntityStateM,
        handleEntityTypeFrame ⟨[], [], 0⟩ 7 "User" (some 42) true
            = .ok (es2, .mirror 0)
        ∧ (releaseMirror es2 0).2 = [⟨7, "entity/unsubscribe", "", ""⟩]
        ∧ (releaseMirror (releaseMirror es2 0).1 0).2 = [])
    ∧ handleEntityTypeFrame (handleEntity ⟨[], [], 0⟩ "User" 42).1 9 "User" (some 42) true
        = .ok ((handleEntity ⟨[], [], 0⟩ "User" 42).1, .mirror 0) :=
  ⟨(c5_entity_mirror_reuse ⟨[], [], 0⟩ 7 "User" 42).1 (by decide),
    (c5_entity_mirror_reuse (handleEntity ⟨[], [], 0⟩ "User" 42).1 9 "User" 42).2 0 (by decide)⟩

/-- Modelled from the spec: the Chunked Transfer Codec (§4.6; the
`ClientProgress`/writer implementation lives in the rpc package's `writer.ts`,
which is not under `src/`).  A payload of `total` wire bytes is split into
sequential full chunks of `chunk` bytes followed by a smaller final chunk
holding the remainder. -/
def chunkList (chunk total : Nat) : List Nat :=
  List.replicate (total / chunk) chunk
    ++ (if total % chunk = 0 then [] else [total % chunk])

/-- Modelled from the spec: the download-progress observer fires once per
received chunk with `current` = bytes assembled so far (§4.6), i.e. the
partial sums of the chunk sizes. -/
def progressSamples (chunks : List Nat) : List Nat :=
  (chunks.scanl (fun acc c => acc + c) 0).drop 1

/-- Modelled from the spec: `done` compares assembled length to the announced
total (§4.6); `progress = current/total` equals 1 exactly when
`current = total` and is `≤ 1` exactly when `current ≤ total`. -/
def progressDone (current total : Nat) : Bool :=
  current = total

/-- C9: for the 650,000-byte payload of the cited test, which arrives as
650,025 wire bytes (25 bytes of protocol overhead) in 100,000-byte chunks, the
observed `current` samples are exactly
`[100000, 200000, 300000, 400000, 500000, 600000, 650025]`; they are
monotonically non-decreasing, every sample keeps `progress = current/total ≤ 1`
(`current ≤ total`), `done` is true only at the last sample, and the final
sample reaches `progress = 1` (`current = total`). -/
theorem c9_download_progress :
    progressSamples (chunkList 100000 650025)
        = [100000, 200000, 300000, 400000, 500000, 600000, 650025]
    ∧ List.Chain' (· ≤ ·) (progressSamples (chunkList 100000 650025))
    ∧ (progressSamples (chunkList 100000 650025)).all (fun c => c ≤ 650025)
    ∧ (progressSamples (chunkList 100000 650025)).dropLast.all
        (fun c => progressDone c 650025 = false)
    ∧ (progressSamples (chunkList 100000 650025)).getLast?.map
        (fun c => progressDone c 650025) = some true := by
  have h : progressSamples (chunkList 100000 650025)
      = [100000, 200000, 300000, 400000, 500000, 600000, 650025] := by decide
  refine ⟨h, ?_, ?_, ?_, ?_⟩
  · rw [h]
    norm_num [List.chain'_cons]
  · decide
  · decide
  · decide

/-- The ordering-relevant events of `connect()` on a client whose config has a
token (source lines 313-372 and 635-675):

* `socketOpen` — the WebSocket `onopen` handler fires and, because
  `this.config.token` is set, calls `await this.authenticate()`.
* `authSent` — the `authenticate` frame is passed to `socket.send`.  This
  happens in `sendMessage`'s continuation `this.connect().then(() =>
  this.send(message))`, and the inner `connect()` first awaits the in-flight
  `this.connectionPromise`; so the frame can only be sent after that promise
  settles.
* `authReplied` — the server's reply to the authenticate frame is processed;
  it requires the frame to have been sent.
* `connectSettled` — the promise returned by `doConnect` (and hence
  `connect()`) resolves or rejects.  Both `resolve()` and
  `reject(new AuthorizationError())` sit after `await this.authenticate()` in
  `socket.onopen`, so they require `socketOpen` and `authReplied`. -/
inductive AuthEv where
  | socketOpen
  | authSent
  | authReplied
  | connectSettled
deriving DecidableEq, Repr

/-- Whether event `e` is enabled after the events in `seen` have happened
(the guards transliterate the control-flow dependencies listed on `AuthEv`). -/
def authGuard (e : AuthEv) (seen : List AuthEv) : Bool :=
  match e with
  | .socketOpen => true
  | .authSent => seen.contains .connectSettled
  | .authReplied => seen.contains .authSent
  | .connectSettled => seen.contains .socketOpen && seen.contains .authReplied

def validAuthAux : List AuthEv → List AuthEv → Bool
  | _, [] => true
  | seen, e :: rest => authGuard e seen && validAuthAux (e :: seen) rest

/-- A trace of events that respects every event's enabling guard. -/
def ValidAuthTrace (tr : List AuthEv) : Bool :=
  validAuthAux [] tr

theorem validAuthAux_no_progress (tr : List AuthEv) :
    ∀ seen : List AuthEv,
      AuthEv.authSent ∉ seen → AuthEv.authReplied ∉ seen →
      AuthEv.connectSettled ∉ seen → validAuthAux seen tr = true →
      AuthEv.authSent ∉ tr ∧ AuthEv.authReplied ∉ tr ∧ AuthEv.connectSettled ∉ tr := by
  induction tr with
  | nil =>
    intro seen h1 h2 h3 hv
    simp
  | cons e rest ih =>
    intro seen h1 h2 h3 hv
    have hg : authGuard e seen = true ∧ validAuthAux (e :: seen) rest = true := by
      simpa [validAuthAux, Bool.and_eq_true] using hv
    cases e with
    | socketOpen =>
      have hr := ih (AuthEv.socketOpen :: seen)
        (by simp [h1]) (by simp [h2]) (by simp [h3]) hg.2
      simp [hr.1, hr.2.1, hr.2.2]
    | authSent =>
      exfalso
      have hc : seen.contains AuthEv.connectSettled = true := hg.1
      exact h3 (by simpa using hc)
    | authReplied =>
      exfalso
      have hc : seen.contains AuthEv.authSent = true := hg.1
      exact h1 (by simpa using hc)
    | connectSettled =>
      exfalso
      have hc : (seen.contains AuthEv.socketOpen && seen.contains AuthEv.authReplied) = true :=
        hg.1
      exact h2 (by simpa using (Bool.and_eq_true_iff.mp hc).2)

/-- C2 (code behavior at the claim's scenario): on a client configured with a
token — valid or invalid — no execution respecting the code's control-flow
dependencies ever sends the `authenticate` frame or settles `connect()`:
`sendMessage` only sends after the inner `connect()` resolves, the in-flight
`connectionPromise` settles only after `await this.authenticate()` completes
in `onopen`, and `authenticate` completes only after the reply to a frame
that was never sent.  `connect()` therefore neither resolves (valid token)
nor rejects with `AuthorizationError` (invalid token); it deadlocks, and no
action call is ever attempted either. -/
theorem c2_token_connect_deadlock (tr : List AuthEv) (hv : ValidAuthTrace tr = true) :
    AuthEv.authSent ∉ tr ∧ AuthEv.connectSettled ∉ tr := by
  have h := validAuthAux_no_progress tr []
    (by simp) (by simp) (by simp) hv
  exact ⟨h.1, h.2.2⟩

/-- Witness for `c2_token_connect_deadlock`: the trace in which the socket
opens and nothing else ever happens is valid, and contains neither an
`authenticate` send nor a settlement of `connect()`. -/
theorem c2_token_connect_deadlock_witness :
    AuthEv.authSent ∉ [AuthEv.socketOpen] ∧ AuthEv.connectSettled ∉ [AuthEv.socketOpen] :=
  c2_token_connect_deadlock [AuthEv.socketOpen] (by decide)

/-- Status of one `doConnect()` attempt's promise: `inflight` (neither socket
handler has settled it), `resolved` (the `onopen` path ran `resolve()`),
`rejected` (the `onerror` path ran `reject(...)` because
`this.connectionTries === 1`), or `abandoned` (the `onerror` path fired with
`connectionTries ≠ 1`, so the promise is never settled). -/
inductive AStat where
  | inflight
  | resolved
  | rejected
  | abandoned
deriving DecidableEq, Repr

/-- Program counter of one logical caller of `connect()` (token-less config,
so `onopen` resolves directly).  Between two `await`s JavaScript runs the
caller's code atomically, so each constructor marks a suspension point:
`start` — about to evaluate `while (this.connectionPromise)`;
`waitLoop a` — suspended on `await this.connectionPromise` inside the
`while` loop, where the awaited promise belongs to attempt `a`;
`awaitOwn a` — suspended on `await this.connectionPromise` inside the
`try/finally`, owning attempt `a` that this caller started;
`doneOk`/`doneErr` — `connect()` returned / threw. -/
inductive CPC where
  | start
  | waitLoop (a : Nat)
  | awaitOwn (a : Nat)
  | doneOk
  | doneErr
deriving DecidableEq, Repr

/-- Shared connection state (the `SocketClient` fields `connectionPromise`,
`connected`, `connectionTries`) plus the per-attempt promise statuses and the
per-caller program counters. -/
structure ConnState where
  cp : Option Nat
  connected : Bool
  tries : Nat
  attempts : List AStat
  callers : List CPC
deriving DecidableEq, Repr

/-- `n` concurrent callers about to invoke `connect()` on a fresh client. -/
def connInit (n : Nat) : ConnState :=
  { cp := none
    connected := false
    tries := 0
    attempts := []
    callers := List.replicate n CPC.start }

/-- The interleaving semantics of concurrent `connect()` callers (source
lines 313-372) with the socket's `onopen`/`onerror` events:

* `startWait` — a caller at the `while` check finds `connectionPromise` set
  and awaits it.
* `startDone` — a caller exits the `while` loop (`connectionPromise` unset)
  and returns because `this.connected` is true.
* `startAttempt` — a caller exits the `while` loop, finds `connected` false,
  runs `this.connectionPromise = this.doConnect()` (which increments
  `connectionTries` and registers the socket handlers) and suspends on
  `await this.connectionPromise`; all of that is one synchronous step.
* `waitResolved` — a waiter's awaited promise resolved; it re-runs the
  `while` check.
* `waitRejected` — a waiter's awaited promise rejected; the exception
  propagates out of `connect()` (the `try` only guards the owner's await).
* `ownResolved`/`ownRejected` — the owner's awaited promise settled; the
  `finally` runs `delete this.connectionPromise` and `connect()` returns or
  throws.
* `openEv` — `socket.onopen` for an in-flight attempt: `connected = true;
  connectionTries = 0; resolve()`.
* `errorEv` — `socket.onerror` for an in-flight attempt: `connected = false`,
  and `reject(...)` only if `this.connectionTries === 1`; otherwise the
  promise is left pending forever. -/
inductive ConnStep : ConnState → ConnState → Prop
  | startWait (s : ConnState) (i a : Nat) :
      s.callers.get? i = some CPC.start → s.cp = some a →
      ConnStep s { s with callers := s.callers.set i (CPC.waitLoop a) }
  | startDone (s : ConnState) (i : Nat) :
      s.callers.get? i = some CPC.start → s.cp = none → s.connected = true →
      ConnStep s { s with callers := s.callers.set i CPC.doneOk }
  | startAttempt (s : ConnState) (i : Nat) :
      s.callers.get? i = some CPC.start → s.cp = none → s.connected = false →
      ConnStep s { s with
        cp := some s.attempts.length
        tries := s.tries + 1
        attempts := s.attempts ++ [AStat.inflight]
        callers := s.callers.set i (CPC.awaitOwn s.attempts.length) }
  | waitResolved (s : ConnState) (i a : Nat) :
      s.callers.get? i = some (CPC.waitLoop a) → s.attempts.get? a = some AStat.resolved →
      ConnStep s { s with callers := s.callers.set i CPC.start }
  | waitRejected (s : ConnState) (i a : Nat) :
      s.callers.get? i = some (CPC.waitLoop a) → s.attempts.get? a = some AStat.rejected →
      ConnStep s { s with callers := s.callers.set i CPC.doneErr }
  | ownResolved (s : ConnState) (i a : Nat) :
      s.callers.get? i = some (CPC.awaitOwn a) → s.attempts.get? a = some AStat.resolved →
      ConnStep s { s with cp := none, callers := s.callers.set i CPC.doneOk }
  | ownRejected (s : ConnState) (i a : Nat) :
      s.callers.get? i = some (CPC.awaitOwn a) → s.attempts.get? a = some AStat.rejected →
      ConnStep s { s with cp := none, callers := s.callers.set i CPC.doneErr }
  | openEv (s : ConnState) (a : Nat) :
      s.attempts.get? a = some AStat.inflight →
      ConnStep s { s with
        connected := true
        tries := 0
        attempts := s.attempts.set a AStat.resolved }
  | errorEv (s : ConnState) (a : Nat) :
      s.attempts.get? a = some AStat.inflight →
      ConnStep s { s with
        connected := false
        attempts := s.attempts.set a
          (if s.tries = 1 then AStat.rejected else AStat.abandoned) }

/-- States reachable from `n` concurrent callers on a fresh client. -/
def ConnReachable (n : Nat) (s : ConnState) : Prop :=
  Relation.ReflTransGen ConnStep (connInit n) s

/-- The inductive invariant of the connect state machine. -/
def ConnInv (s : ConnState) : Prop :=
  (∀ a : Nat, s.attempts.get? a = some AStat.inflight → s.cp = some a)
  ∧ (∀ i a : Nat, s.callers.get? i = some (CPC.awaitOwn a) → s.cp = some a)
  ∧ (∀ i j a b : Nat, s.callers.get? i = some (CPC.awaitOwn a) →
      s.callers.get? j = some (CPC.awaitOwn b) → i = j)
  ∧ (s.connected = true → ∀ a : Nat, s.attempts.get? a ≠ some AStat.inflight)
  ∧ (s.connected = false → s.tries = s.attempts.length)
  ∧ (∀ a : Nat, s.attempts.get? a = some AStat.rejected → a = 0)
  ∧ (∀ i : Nat, s.callers.get? i = some CPC.doneErr →
      s.attempts.get? 0 = some AStat.rejected)

theorem get?_set_cases {α : Type} (l : List α) (i j : Nat) (v x : α)
    (h : (l.set i v).get? j = some x) : (i = j ∧ x = v) ∨ l.get? j = some x := by
  by_cases hij : i = j
  · subst hij
    by_cases hi : i < l.length
    · rw [List.get?_set_eq_of_lt v hi] at h
      exact Or.inl ⟨rfl, (Option.some_inj.mp h).symm⟩
    · rw [List.set_eq_of_length_le (Nat.le_of_not_lt hi)] at h
      exact Or.inr h
  · rw [List.get?_set_ne v l hij] at h
    exact Or.inr h

theorem get?_set_ne_keep {α : Type} (l : List α) (i j : Nat) (v : α) (hij : i ≠ j) :
    (l.set i v).get? j = l.get? j :=
  List.get?_set_ne v l hij

theorem get?_some_lt {α : Type} (l : List α) (i : Nat) (x : α) (h : l.get? i = some x) :
    i < l.length := by
  by_contra hc
  rw [List.get?_eq_none.mpr (Nat.le_of_not_lt hc)] at h
  cases h

theorem get?_append_singleton {α : Type} (l : List α) (x : α) (b : Nat) :
    (l ++ [x]).get? b =
      if b < l.length then l.get? b else if b = l.length then some x else none := by
  by_cases h1 : b < l.length
  · rw [if_pos h1, List.get?_append h1]
  · rw [if_neg h1]
    by_cases h2 : b = l.length
    · subst h2
      rw [if_pos rfl]
      exact List.get?_concat_length l x
    · rw [if_neg h2]
      apply List.get?_eq_none.mpr
      rw [List.length_append]
      simp only [List.length_cons, List.length_nil]
      omega

theorem replicate_get?_eq (n i : Nat) (p x : CPC)
    (h : (List.replicate n p).get? i = some x) : x = p := by
  rw [List.get?_eq_getElem?, List.getElem?_replicate] at h
  by_cases hi : i < n
  · rw [if_pos hi] at h
    exact (Option.some_inj.mp h).symm
  · rw [if_neg hi] at h
    cases h

theorem connInv_init (n : Nat) : ConnInv (connInit n) := by
  refine ⟨?_, ?_, ?_, ?_, ?_, ?_, ?_⟩
  · intro a ha
    cases ha
  · intro i a hi
    cases replicate_get?_eq n i CPC.start (CPC.awaitOwn a) hi
  · intro i j a b hi hj
    cases replicate_get?_eq n i CPC.start (CPC.awaitOwn a) hi
  · intro hc a
    intro ha
    cases ha
  · intro _
    rfl
  · intro a ha
    cases ha
  · intro i hi
    cases replicate_get?_eq n i CPC.start CPC.doneErr hi

theorem connInv_step (s t : ConnState) (h : ConnStep s t) (hI : ConnInv s) : ConnInv t := by
  obtain ⟨sA, sF1, sF2, sC, sD, sE, sH⟩ := hI
  cases h with
  | startWait i a hci hcp =>
    refine ⟨sA, ?_, ?_, sC, sD, sE, ?_⟩
    · intro j b hj
      rcases get?_set_cases _ i j _ _ hj with ⟨hij, hx⟩ | hold
      · simp at hx
      · exact sF1 j b hold
    · intro j k b c hj hk
      rcases get?_set_cases _ i j _ _ hj with ⟨hij, hx⟩ | hold1
      · simp at hx
      rcases get?_set_cases _ i k _ _ hk with ⟨hik, hx⟩ | hold2
      · simp at hx
      exact sF2 j k b c hold1 hold2
    · intro j hj
      rcases get?_set_cases _ i j _ _ hj with ⟨hij, hx⟩ | hold
      · simp at hx
      · exact sH j hold
  | startDone i hci hcp hconn =>
    refine ⟨sA, ?_, ?_, sC, sD, sE, ?_⟩
    · intro j b hj
      rcases get?_set_cases _ i j _ _ hj with ⟨hij, hx⟩ | hold
      · simp at hx
      · exact sF1 j b hold
    · intro j k b c hj hk
      rcases get?_set_cases _ i j _ _ hj with ⟨hij, hx⟩ | hold1
      · simp at hx
      rcases get?_set_cases _ i k _ _ hk with ⟨hik, hx⟩ | hold2
      · simp at hx
      exact sF2 j k b c hold1 hold2
    · intro j hj
      rcases get?_set_cases _ i j _ _ hj with ⟨hij, hx⟩ | hold
      · simp at hx
      · exact sH j hold
  | startAttempt i hci hcp hconn =>
    refine ⟨?_, ?_, ?_, ?_, ?_, ?_, ?_⟩
    · intro b hb
      have hb2 : (s.attempts ++ [AStat.inflight]).get? b = some AStat.inflight := hb
      rw [get?_append_singleton] at hb2
      by_cases hbl : b < s.attempts.length
      · rw [if_pos hbl] at hb2
        have hx := sA b hb2
        rw [hcp] at hx
        cases hx
      · rw [if_neg hbl] at hb2
        by_cases hbe : b = s.attempts.length
        · show some s.attempts.length = some b
          rw [hbe]
        · rw [if_neg hbe] at hb2
          cases hb2
    · intro j b hj
      rcases get?_set_cases _ i j _ _ hj with ⟨hij, hx⟩ | hold
      · simp only [CPC.awaitOwn.injEq] at hx
        show some s.attempts.length = some b
        rw [hx]
      · have hx := sF1 j b hold
        rw [hcp] at hx
        cases hx
    · intro j k b c hj hk
      rcases get?_set_cases _ i j _ _ hj with ⟨hij, hx⟩ | hold1
      · rcases get?_set_cases _ i k _ _ hk with ⟨hik, hy⟩ | hold2
        · rw [← hij, ← hik]
        · have hx := sF1 k c hold2
          rw [hcp] at hx
          cases hx
      · have hx := sF1 j b hold1
        rw [hcp] at hx
        cases hx
    · intro hc
      have hc2 : s.connected = true := hc
      rw [hconn] at hc2
      cases hc2
    · intro _
      show s.tries + 1 = (s.attempts ++ [AStat.inflight]).length
      rw [List.length_append, sD hconn]
      rfl
    · intro b hb
      have hb2 : (s.attempts ++ [AStat.inflight]).get? b = some AStat.rejected := hb
      rw [get?_append_singleton] at hb2
      by_cases hbl : b < s.attempts.length
      · rw [if_pos hbl] at hb2
        exact sE b hb2
      · rw [if_neg hbl] at hb2
        by_cases hbe : b = s.attempts.length
        · rw [if_pos hbe] at hb2
          cases hb2
        · rw [if_neg hbe] at hb2
          cases hb2
    · intro j hj
      rcases get?_set_cases _ i j _ _ hj with ⟨hij, hx⟩ | hold
      · simp at hx
      · have h0 := sH j hold
        show (s.attempts ++ [AStat.inflight]).get? 0 = some AStat.rejected
        rw [get?_append_singleton, if_pos (get?_some_lt _ _ _ h0)]
        exact h0
  | waitResolved i a hci hres =>
    refine ⟨sA, ?_, ?_, sC, sD, sE, ?_⟩
    · intro j b hj
      rcases get?_set_cases _ i j _ _ hj with ⟨hij, hx⟩ | hold
      · simp at hx
      · exact sF1 j b hold
    · intro j k b c hj hk
      rcases get?_set_cases _ i j _ _ hj with ⟨hij, hx⟩ | hold1
      · simp at hx
      rcases get?_set_cases _ i k _ _ hk with ⟨hik, hx⟩ | hold2
      · simp at hx
      exact sF2 j k b c hold1 hold2
    · intro j hj
      rcases get?_set_cases _ i j _ _ hj with ⟨hij, hx⟩ | hold
      · simp at hx
      · exact sH j hold
  | waitRejected i a hci hrej =>
    refine ⟨sA, ?_, ?_, sC, sD, sE, ?_⟩
    · intro j b hj
      rcases get?_set_cases _ i j _ _ hj with ⟨hij, hx⟩ | hold
      · simp at hx
      · exact sF1 j b hold
    · intro j k b c hj hk
      rcases get?_set_cases _ i j _ _ hj with ⟨hij, hx⟩ | hold1
      · simp at hx
      rcases get?_set_cases _ i k _ _ hk with ⟨hik, hx⟩ | hold2
      · simp at hx
      exact sF2 j k b c hold1 hold2
    · intro j hj
      rcases get?_set_cases _ i j _ _ hj with ⟨hij, hx⟩ | hold
      · have h0 := sE a hrej
        rw [h0] at hrej
        exact hrej
      · exact sH j hold
  | ownResolved i a hoi hres =>
    refine ⟨?_, ?_, ?_, sC, sD, sE, ?_⟩
    · intro b hb
      have h1 := sA b hb
      have h2 := sF1 i a hoi
      rw [h2] at h1
      have hba : a = b := Option.some_inj.mp h1
      rw [← hba] at hb
      have hb2 : s.attempts.get? a = some AStat.inflight := hb
      rw [hres] at hb2
      cases hb2
    · intro j b hj
      rcases get?_set_cases _ i j _ _ hj with ⟨hij, hx⟩ | hold
      · simp at hx
      · have hji := sF2 j i b a hold hoi
        subst hji
        have hj2 : (s.callers.set j CPC.doneOk).get? j = some (CPC.awaitOwn b) := hj
        rw [List.get?_set_eq_of_lt _ (get?_some_lt _ _ _ hoi)] at hj2
        simp at hj2
    · intro j k b c hj hk
      rcases get?_set_cases _ i j _ _ hj with ⟨hij, hx⟩ | hold1
      · simp at hx
      rcases get?_set_cases _ i k _ _ hk with ⟨hik, hx⟩ | hold2
      · simp at hx
      exact sF2 j k b c hold1 hold2
    · intro j hj
      rcases get?_set_cases _ i j _ _ hj with ⟨hij, hx⟩ | hold
      · simp at hx
      · exact sH j hold
  | ownRejected i a hoi hrej =>
    refine ⟨?_, ?_, ?_, sC, sD, sE, ?_⟩
    · intro b hb
      have h1 := sA b hb
      have h2 := sF1 i a hoi
      rw [h2] at h1
      have hba : a = b := Option.some_inj.mp h1
      rw [← hba] at hb
      have hb2 : s.attempts.get? a = some AStat.inflight := hb
      rw [hrej] at hb2
      cases hb2
    · intro j b hj
      rcases get?_set_cases _ i j _ _ hj with ⟨hij, hx⟩ | hold
      · simp at hx
      · have hji := sF2 j i b a hold hoi
        subst hji
        have hj2 : (s.callers.set j CPC.doneErr).get? j = some (CPC.awaitOwn b) := hj
        rw [List.get?_set_eq_of_lt _ (get?_some_lt _ _ _ hoi)] at hj2
        simp at hj2
    · intro j k b c hj hk
      rcases get?_set_cases _ i j _ _ hj with ⟨hij, hx⟩ | hold1
      · simp at hx
      rcases get?_set_cases _ i k _ _ hk with ⟨hik, hx⟩ | hold2
      · simp at hx
      exact sF2 j k b c hold1 hold2
    · intro j hj
      rcases get?_set_cases _ i j _ _ hj with ⟨hij, hx⟩ | hold
      · have h0 := sE a hrej
        rw [h0] at hrej
        exact hrej
      · exact sH j hold
  | openEv a hpa =>
    refine ⟨?_, sF1, sF2, ?_, ?_, ?_, ?_⟩
    · intro b hb
      rcases get?_set_cases _ a b _ _ hb with ⟨hab, hx⟩ | hold
      · simp at hx
      · exact sA b hold
    · intro _ b hb
      rcases get?_set_cases _ a b _ _ hb with ⟨hab, hx⟩ | hold
      · simp at hx
      · have h1 := sA b hold
        have h2 := sA a hpa
        rw [h2] at h1
        have hba : a = b := Option.some_inj.mp h1
        subst hba
        have hb2 : (s.attempts.set a AStat.resolved).get? a = some AStat.inflight := hb
        rw [List.get?_set_eq_of_lt _ (get?_some_lt _ _ _ hpa)] at hb2
        cases hb2
    · intro hc
      exact absurd (show true = false from hc) (by simp)
    · intro b hb
      rcases get?_set_cases _ a b _ _ hb with ⟨hab, hx⟩ | hold
      · simp at hx
      · exact sE b hold
    · intro j hj
      have h0 := sH j hj
      have hne : a ≠ 0 := by
        intro hz
        rw [hz, h0] at hpa
        cases hpa
      show (s.attempts.set a AStat.resolved).get? 0 = some AStat.rejected
      rw [get?_set_ne_keep _ a 0 _ hne]
      exact h0
  | errorEv a hpa =>
    have hocf : s.connected = false := by
      cases hcs : s.connected with
      | false => rfl
      | true => exact absurd hpa (sC hcs a)
    have hD := sD hocf
    refine ⟨?_, sF1, sF2, ?_, ?_, ?_, ?_⟩
    · intro b hb
      rcases get?_set_cases _ a b _ _ hb with ⟨hab, hx⟩ | hold
      · by_cases ht : s.tries = 1 <;> simp [ht] at hx
      · exact sA b hold
    · intro hc
      exact absurd (show false = true from hc) (by simp)
    · intro _
      show s.tries
          = (s.attempts.set a (if s.tries = 1 then AStat.rejected else AStat.abandoned)).length
      rw [List.length_set]
      exact hD
    · intro b hb
      rcases get?_set_cases _ a b _ _ hb with ⟨hab, hx⟩ | hold
      · by_cases ht : s.tries = 1
        · have hal : a < s.attempts.length := get?_some_lt _ _ _ hpa
          omega
        · simp [ht] at hx
      · exact sE b hold
    · intro j hj
      have h0 := sH j hj
      have hne : a ≠ 0 := by
        intro hz
        rw [hz, h0] at hpa
        cases hpa
      show (s.attempts.set a (if s.tries = 1 then AStat.rejected else AStat.abandoned)).get? 0
          = some AStat.rejected
      rw [get?_set_ne_keep _ a 0 _ hne]
      exact h0

theorem connInv_reachable (n : Nat) (s : ConnState) (h : ConnReachable n s) : ConnInv s := by
  induction h with
  | refl => exact connInv_init n
  | tail _ hstep ih => exact connInv_step _ _ hstep ih

/-- C8: in every state reachable by concurrent `connect()` callers on a fresh
client, (a) at most one connect attempt is in flight — a new `doConnect()` is
started only when `connectionPromise` is unset, so concurrent callers never
start a duplicate attempt; (b) a caller that finds an attempt in flight can
(only) await that single in-flight attempt (the `startWait` transition is
enabled towards exactly that attempt); (c) the only attempt whose promise is
ever rejected is the very first one (`connectionTries === 1`), failures of
later attempts reject nobody (their promises are left pending); (d) every
caller that exits `connect()` with an error does so because the very first
attempt was rejected, and (e) that rejection does propagate: the owner of a
rejected first attempt can step to its error exit. -/
theorem c8_connect_serialized (n : Nat) (s : ConnState) (h : ConnReachable n s) :
    (∀ a b : Nat, s.attempts.get? a = some AStat.inflight →
        s.attempts.get? b = some AStat.inflight → a = b)
    ∧ (∀ i a : Nat, s.callers.get? i = some CPC.start → s.cp = some a →
        ConnStep s { s with callers := s.callers.set i (CPC.waitLoop a) })
    ∧ (∀ a : Nat, s.attempts.get? a = some AStat.rejected → a = 0)
    ∧ (∀ i : Nat, s.callers.get? i = some CPC.doneErr →
        s.attempts.get? 0 = some AStat.rejected)
    ∧ (∀ i : Nat, s.callers.get? i = some (CPC.awaitOwn 0) →
        s.attempts.get? 0 = some AStat.rejected →
        ConnStep s { s with cp := none, callers := s.callers.set i CPC.doneErr }) := by
  obtain ⟨sA, sF1, sF2, sC, sD, sE, sH⟩ := connInv_reachable n s h
  refine ⟨?_, ?_, sE, sH, ?_⟩
  · intro a b ha hb
    have h1 := sA a ha
    have h2 := sA b hb
    rw [h1] at h2
    exact Option.some_inj.mp h2
  · intro i a hi hcp
    exact ConnStep.startWait s i a hi hcp
  · intro i hi hrej
    exact ConnStep.ownRejected s i 0 hi hrej

/-- Witness for `c8_connect_serialized`: the initial state of two concurrent
callers is reachable (empty trace) and satisfies all five conjuncts. -/
theorem c8_connect_serialized_witness :
    (∀ a b : Nat, (connInit 2).attempts.get? a = some AStat.inflight →
        (connInit 2).attempts.get? b = some AStat.inflight → a = b)
    ∧ (∀ i a : Nat, (connInit 2).callers.get? i = some CPC.start → (connInit 2).cp = some a →
        ConnStep (connInit 2)
          { connInit 2 with callers := (connInit 2).callers.set i (CPC.waitLoop a) })
    ∧ (∀ a : Nat, (connInit 2).attempts.get? a = some AStat.rejected → a = 0)
    ∧ (∀ i : Nat, (connInit 2).callers.get? i = some CPC.doneErr →
        (connInit 2).attempts.get? 0 = some AStat.rejected)
    ∧ (∀ i : Nat, (connInit 2).callers.get? i = some (CPC.awaitOwn 0) →
        (connInit 2).attempts.get? 0 = some AStat.rejected →
        ConnStep (connInit 2)
          { connInit 2 with cp := none, callers := (connInit 2).callers.set i CPC.doneErr }) :=
  c8_connect_serialized 2 (connInit 2) Relation.ReflTransGen.refl
